import Mathlib

/-!
Shallow embedding of the opsee/pomapper port-mapper library
(portmapper.go).  Pure data (the Service record, validation, the etcd
key path, the JSON codec) is translated directly.  The etcd client is
modelled as an oracle giving the outcome of each store attempt, and
the retry loops of Register, Unregister and Services are translated as
structural recursion on the remaining attempt budget, returning the
final result together with the number of store calls made and the
list of backoff sleeps (in milliseconds) performed, in order.
-/

namespace Portmapper

/-- Errors as the Go code distinguishes them: the timeout sentinel
(context.DeadlineExceeded), the etcd key-not-found report, and any
other non-nil error. -/
inductive GoError
  | deadlineExceeded
  | keyNotFound
  | other (msg : String)
  deriving DecidableEq, Repr

/-- The service record (portmapper.go, type Service).  The Go int is
modelled as Int; the Hostname field carries the json omitempty tag. -/
structure Service where
  Name : String
  Port : Int
  Hostname : String
  deriving DecidableEq, Repr

/-- Default value of the RegistryPath package variable. -/
def RegistryPath : String := "/opsee.co/portmapper"

/-- Default value of the MaxRetries package variable. -/
def MaxRetries : Nat := 11

/-- Service.validate (portmapper.go lines 44-53): the name must be
non-empty and the port in 1..65535.  A nil Go error is none. -/
def Service.validate (s : Service) : Option GoError :=
  if s.Name = "" then some (GoError.other "Service lacks Name field")
  else if s.Port < 1 ∨ s.Port > 65535 then
    some (GoError.other "Service Port is outside valid range")
  else none

/-- JSON values, the image of encoding/json for the types reached from
Service.  Numbers are restricted to integers because the only numeric
field in play is the Go int Port. -/
inductive Json
  | null
  | bool (b : Bool)
  | num (n : Int)
  | str (s : String)
  | arr (elems : List Json)
  | obj (fields : List (String × Json))

/-- Service.Marshal (portmapper.go lines 61-68).  Modelled from the Go
standard library: json.Marshal of a Service emits the object with keys
name, port and, when Hostname is non-empty (omitempty), hostname.  For
this field set (string, int, string) json.Marshal cannot fail, so the
error side of the Go signature is never used. -/
def Service.Marshal (s : Service) : Except GoError Json :=
  Except.ok (Json.obj
    ([("name", Json.str s.Name), ("port", Json.num s.Port)] ++
      (if s.Hostname = "" then [] else [("hostname", Json.str s.Hostname)])))

/-- Modelled from the Go standard library: one step of json.Unmarshal
into a Service, applying a single object field.  A known key with a
value of the wrong type is a type error; null leaves the field
untouched; unknown keys are ignored. -/
def applyField (s : Service) : String × Json → Except GoError Service
  | ("name", Json.str v) => Except.ok { s with Name := v }
  | ("name", Json.null) => Except.ok s
  | ("name", _) => Except.error (GoError.other "json: cannot unmarshal value into field name")
  | ("port", Json.num v) => Except.ok { s with Port := v }
  | ("port", Json.null) => Except.ok s
  | ("port", _) => Except.error (GoError.other "json: cannot unmarshal value into field port")
  | ("hostname", Json.str v) => Except.ok { s with Hostname := v }
  | ("hostname", Json.null) => Except.ok s
  | ("hostname", _) => Except.error (GoError.other "json: cannot unmarshal value into field hostname")
  | (_, _) => Except.ok s

/-- Fold of applyField over the fields of a JSON object, aborting on
the first type error, as json.Unmarshal surfaces its first error. -/
def applyFields (s : Service) : List (String × Json) → Except GoError Service
  | [] => Except.ok s
  | f :: fs =>
    match applyField s f with
    | Except.error e => Except.error e
    | Except.ok s2 => applyFields s2 fs

/-- UnmarshalService (portmapper.go lines 71-79): json.Unmarshal into a
zero Service; a non-object payload is a type error. -/
def UnmarshalService (j : Json) : Except GoError Service :=
  match j with
  | Json.obj fields => applyFields { Name := "", Port := 0, Hostname := "" } fields
  | _ => Except.error (GoError.other "json: cannot unmarshal value into Service")

/-- The character of a single decimal digit. -/
def digitToChar (d : Nat) : Char := Char.ofNat (48 + d)

/-- Modelled from the Go standard library: the decimal digit string of
a natural number, via Mathlib base-10 digits (most significant digit
first). -/
def natRepr (n : Nat) : List Char :=
  if n = 0 then [digitToChar 0] else ((Nat.digits 10 n).map digitToChar).reverse

/-- Modelled from the Go standard library: fmt %d for a Go int. -/
def intRepr (i : Int) : String :=
  if i < 0 then String.mk ('-' :: natRepr (-i).toNat) else String.mk (natRepr i.toNat)

/-- Service.path (portmapper.go lines 56-58):
Sprintf of "%s/%s:%d" applied to RegistryPath, Name, Port. -/
def Service.path (s : Service) : String :=
  RegistryPath ++ "/" ++ s.Name ++ ":" ++ intRepr s.Port

/-- The retry loop shared syntactically by Register and Unregister
(portmapper.go lines 105-141 and 181-217), with the store attempt
oracle giving the error of each KeysAPI call (none is a nil error).
At attempt i, a nil error breaks out of the loop and the function then
returns nil; a deadline-exceeded error logs, sleeps 2 <<< i
milliseconds and retries; any other error is returned at once.  When
the budget is exhausted the loop falls through and the function
returns nil.  Result: (error returned to the caller, store calls
made, backoff sleeps performed in order). -/
def retryLoop (store : Nat → Option GoError) :
    Nat → Nat → Option GoError × Nat × List Nat
  | _, 0 => (none, 0, [])
  | i, rem + 1 =>
    match store i with
    | none => (none, 1, [])
    | some GoError.deadlineExceeded =>
      let r := retryLoop store (i + 1) rem
      (r.1, r.2.1 + 1, (2 <<< i) :: r.2.2)
    | some e => (some e, 1, [])

/-- Why Register or Unregister aborts by panicking. -/
inductive Panic
  | validateFailed
  | marshalFailed
  deriving DecidableEq, Repr

/-- Register (portmapper.go lines 147-220): builds the record with the
HOSTNAME environment value, panics on validation or marshalling
failure, then runs the retry loop around kAPI.Set. -/
def Register (name : String) (port : Int) (hostname : String)
    (store : Nat → Option GoError) :
    Except Panic (Option GoError × Nat × List Nat) :=
  let svc : Service := { Name := name, Port := port, Hostname := hostname }
  match svc.validate with
  | some _ => Except.error Panic.validateFailed
  | none =>
    match svc.Marshal with
    | Except.error _ => Except.error Panic.marshalFailed
    | Except.ok _ => Except.ok (retryLoop store 0 MaxRetries)

/-- Unregister (portmapper.go lines 82-144): the same shape without
the marshalling step, around kAPI.Delete. -/
def Unregister (name : String) (port : Int) (hostname : String)
    (store : Nat → Option GoError) :
    Except Panic (Option GoError × Nat × List Nat) :=
  let svc : Service := { Name := name, Port := port, Hostname := hostname }
  match svc.validate with
  | some _ => Except.error Panic.validateFailed
  | none => Except.ok (retryLoop store 0 MaxRetries)

/-- One Get attempt against the registry path: failure with an error,
or success carrying the values of the child nodes. -/
inductive GetOutcome
  | failure (e : GoError)
  | success (nodes : List Json)

/-- The decode pass over the child nodes (portmapper.go lines
263-271): nodes are decoded left to right and the first decode
failure aborts the whole pass with that error. -/
def decodeNodes : List Json → Except GoError (List Service)
  | [] => Except.ok []
  | n :: ns =>
    match UnmarshalService n with
    | Except.error e => Except.error e
    | Except.ok s =>
      match decodeNodes ns with
      | Except.error e => Except.error e
      | Except.ok ss => Except.ok (s :: ss)

/-- The Services retry loop (portmapper.go lines 236-275).  Unlike
Register and Unregister it does not break on success: a successful,
fully decoded read replaces the accumulator, sleeps and keeps looping;
a deadline-exceeded error sleeps and retries; any other Get error and
any decode error return immediately.  On exhaustion the accumulator of
the last successful read is returned with a nil error. -/
def servicesLoop (store : Nat → GetOutcome) :
    Nat → Nat → List Service → Except GoError (List Service) × Nat × List Nat
  | _, 0, acc => (Except.ok acc, 0, [])
  | i, rem + 1, acc =>
    match store i with
    | GetOutcome.failure GoError.deadlineExceeded =>
      let r := servicesLoop store (i + 1) rem acc
      (r.1, r.2.1 + 1, (2 <<< i) :: r.2.2)
    | GetOutcome.failure e => (Except.error e, 1, [])
    | GetOutcome.success nodes =>
      match decodeNodes nodes with
      | Except.error e => (Except.error e, 1, [])
      | Except.ok svcs =>
        let r := servicesLoop store (i + 1) rem svcs
        (r.1, r.2.1 + 1, (2 <<< i) :: r.2.2)

/-- Services (portmapper.go lines 224-277): the retry loop started
with an empty accumulator and the full budget. -/
def Services (store : Nat → GetOutcome) :
    Except GoError (List Service) × Nat × List Nat :=
  servicesLoop store 0 MaxRetries []

/-! Helper lemmas. -/

theorem validate_eq_none (s : Service) (hn : ¬ s.Name = "") (h1 : 1 ≤ s.Port)
    (h2 : s.Port ≤ 65535) : s.validate = none := by
  unfold Service.validate
  rw [if_neg hn, if_neg (by omega)]

theorem register_eq_loop (name : String) (port : Int) (hostname : String)
    (store : Nat → Option GoError) (hn : ¬ name = "") (h1 : 1 ≤ port) (h2 : port ≤ 65535) :
    Register name port hostname store = Except.ok (retryLoop store 0 MaxRetries) := by
  have hv := validate_eq_none { Name := name, Port := port, Hostname := hostname } hn h1 h2
  simp only [Register, hv, Service.Marshal]

theorem unregister_eq_loop (name : String) (port : Int) (hostname : String)
    (store : Nat → Option GoError) (hn : ¬ name = "") (h1 : 1 ≤ port) (h2 : port ≤ 65535) :
    Unregister name port hostname store = Except.ok (retryLoop store 0 MaxRetries) := by
  have hv := validate_eq_none { Name := name, Port := port, Hostname := hostname } hn h1 h2
  simp only [Unregister, hv]

theorem retryLoop_fatal (store : Nat → Option GoError) (i rem : Nat) (e : GoError)
    (h : store i = some e) (he : e ≠ GoError.deadlineExceeded) :
    retryLoop store i (rem + 1) = (some e, 1, []) := by
  cases e with
  | deadlineExceeded => exact absurd rfl he
  | keyNotFound => simp [retryLoop, h]
  | other msg => simp [retryLoop, h]

theorem map_shift_succ (k i : Nat) :
    (2 <<< i) :: (List.range k).map (fun j => 2 <<< (i + 1 + j)) =
      (List.range (k + 1)).map (fun j => 2 <<< (i + j)) := by
  rw [List.range_succ_eq_map, List.map_cons, List.map_map, Nat.add_zero]
  refine congrArg (2 <<< i :: ·) (List.map_congr_left ?_)
  intro a _
  show 2 <<< (i + 1 + a) = 2 <<< (i + (a + 1))
  congr 1
  omega

theorem retryLoop_timeoutPrefix (store : Nat → Option GoError) (k : Nat) :
    ∀ (i rem : Nat), k < rem →
    (∀ j, j < k → store (i + j) = some GoError.deadlineExceeded) →
    store (i + k) = none →
    retryLoop store i rem = (none, k + 1, (List.range k).map (fun j => 2 <<< (i + j))) := by
  induction k with
  | zero =>
    intro i rem hk ht hs
    obtain ⟨r, rfl⟩ : ∃ r, rem = r + 1 := ⟨rem - 1, by omega⟩
    rw [Nat.add_zero] at hs
    simp [retryLoop, hs]
  | succ k ih =>
    intro i rem hk ht hs
    obtain ⟨r, rfl⟩ : ∃ r, rem = r + 1 := ⟨rem - 1, by omega⟩
    have h0 : store i = some GoError.deadlineExceeded := by
      have h := ht 0 (by omega)
      rwa [Nat.add_zero] at h
    have ih2 := ih (i + 1) r (by omega)
      (fun j hj => by
        have h := ht (j + 1) (by omega)
        rwa [show i + (j + 1) = i + 1 + j by omega] at h)
      (by
        have h := hs
        rwa [show i + (k + 1) = i + 1 + k by omega] at h)
    simp only [retryLoop, h0, ih2]
    exact congrArg (Prod.mk none) (congrArg (Prod.mk (k + 1 + 1)) (map_shift_succ k i))

theorem retryLoop_allTimeout (store : Nat → Option GoError)
    (h : ∀ j, store j = some GoError.deadlineExceeded) :
    ∀ (rem i : Nat),
    retryLoop store i rem = (none, rem, (List.range rem).map (fun j => 2 <<< (i + j))) := by
  intro rem
  induction rem with
  | zero =>
    intro i
    simp [retryLoop]
  | succ r ih =>
    intro i
    simp only [retryLoop, h i, ih (i + 1)]
    exact congrArg (Prod.mk none) (congrArg (Prod.mk (r + 1)) (map_shift_succ r i))

theorem map_shift_zero (k : Nat) :
    (List.range k).map (fun j => 2 <<< (0 + j)) = (List.range k).map (fun j => 2 <<< j) :=
  List.map_congr_left (fun a _ => by rw [Nat.zero_add])

/-! Claim theorems for the Register and Unregister retry loops. -/

/-- Claim C1, counterexample to the claim as stated: with a store that
times out on every attempt, Register returns a nil error (success)
after its MaxRetries attempts, not the last observed timeout error. -/
theorem register_exhaustion_cex :
    Register "web" 80 "" (fun _ => some GoError.deadlineExceeded) =
      Except.ok (none, 11, [2, 4, 8, 16, 32, 64, 128, 256, 512, 1024, 2048]) ∧
    (none : Option GoError) ≠ some GoError.deadlineExceeded := by
  exact ⟨by rfl, by decide⟩

/-- Claim C1 as amended: if every store attempt fails with a timeout,
Register performs exactly MaxRetries attempts, performs no further
store calls, and then returns a nil error (reporting success) to the
caller; the last timeout error is not surfaced. -/
theorem register_exhaustion (name : String) (port : Int) (hostname : String)
    (store : Nat → Option GoError)
    (hn : ¬ name = "") (h1 : 1 ≤ port) (h2 : port ≤ 65535)
    (ht : ∀ j, store j = some GoError.deadlineExceeded) :
    Register name port hostname store =
      Except.ok (none, MaxRetries, (List.range MaxRetries).map (fun j => 2 <<< j)) := by
  rw [register_eq_loop name port hostname store hn h1 h2,
    retryLoop_allTimeout store ht MaxRetries 0, map_shift_zero]

/-- Claim C1 witness. -/
theorem register_exhaustion_witness :
    Register "api" 9000 "" (fun _ => some GoError.deadlineExceeded) =
      Except.ok (none, MaxRetries, (List.range MaxRetries).map (fun j => 2 <<< j)) :=
  register_exhaustion "api" 9000 "" _ (by decide) (by decide) (by decide) (fun _ => rfl)

/-- Claim C4: with k timeouts (k < MaxRetries) followed by a success,
Register succeeds with a nil error, the store records exactly k + 1
attempts, and the backoff delays between consecutive attempts are
non-decreasing. -/
theorem register_timeouts_then_success (name : String) (port : Int) (hostname : String)
    (store : Nat → Option GoError) (k : Nat)
    (hn : ¬ name = "") (h1 : 1 ≤ port) (h2 : port ≤ 65535)
    (hk : k < MaxRetries)
    (ht : ∀ j, j < k → store j = some GoError.deadlineExceeded)
    (hs : store k = none) :
    Register name port hostname store =
      Except.ok (none, k + 1, (List.range k).map (fun j => 2 <<< j)) ∧
    List.Pairwise (· ≤ ·) ((List.range k).map (fun j => 2 <<< j)) := by
  constructor
  · rw [register_eq_loop name port hostname store hn h1 h2,
      retryLoop_timeoutPrefix store k 0 MaxRetries hk
        (fun j hj => by rw [Nat.zero_add]; exact ht j hj) (by rwa [Nat.zero_add]),
      map_shift_zero]
  · refine List.Pairwise.map _ ?_ (List.pairwise_lt_range k)
    intro a b hab
    rw [Nat.shiftLeft_eq, Nat.shiftLeft_eq]
    gcongr <;> omega

/-- Claim C4 witness. -/
theorem register_timeouts_then_success_witness :
    (Register "web" 80 "" (fun j => if j < 2 then some GoError.deadlineExceeded else none) =
      Except.ok (none, 2 + 1, (List.range 2).map (fun j => 2 <<< j)) ∧
    List.Pairwise (· ≤ ·) ((List.range 2).map (fun j => 2 <<< j))) :=
  register_timeouts_then_success "web" 80 "" _ 2 (by decide) (by decide) (by decide) (by decide)
    (fun j hj => by interval_cases j <;> rfl) rfl

/-- Claim C5: a non-timeout store error on the first attempt makes
Register return exactly that error, with exactly one store call and no
backoff sleep. -/
theorem register_fatal_first_attempt (name : String) (port : Int) (hostname : String)
    (store : Nat → Option GoError) (e : GoError)
    (hn : ¬ name = "") (h1 : 1 ≤ port) (h2 : port ≤ 65535)
    (h0 : store 0 = some e) (he : e ≠ GoError.deadlineExceeded) :
    Register name port hostname store = Except.ok (some e, 1, []) := by
  rw [register_eq_loop name port hostname store hn h1 h2,
    show MaxRetries = 10 + 1 from rfl, retryLoop_fatal store 0 10 e h0 he]

/-- Claim C5 witness. -/
theorem register_fatal_first_attempt_witness :
    Register "web" 80 "" (fun _ => some (GoError.other "connection refused")) =
      Except.ok (some (GoError.other "connection refused"), 1, []) :=
  register_fatal_first_attempt "web" 80 "" _ (GoError.other "connection refused")
    (by decide) (by decide) (by decide) rfl (by decide)

/-- Claim C3, counterexample to the claim as stated: when the store
reports the key-not-found condition on the delete attempt, Unregister
returns that error to the caller rather than success. -/
theorem unregister_absent_key_cex :
    Unregister "web" 80 "" (fun _ => some GoError.keyNotFound) =
      Except.ok (some GoError.keyNotFound, 1, []) ∧
    some GoError.keyNotFound ≠ (none : Option GoError) := by
  exact ⟨by rfl, by decide⟩

/-- Claim C3 as amended: for every valid (name, port), when the store
reports the key-not-found condition on the first delete attempt,
Unregister returns that not-found error after exactly one attempt;
deleting an absent key is not treated as success. -/
theorem unregister_absent_key (name : String) (port : Int) (hostname : String)
    (store : Nat → Option GoError)
    (hn : ¬ name = "") (h1 : 1 ≤ port) (h2 : port ≤ 65535)
    (h0 : store 0 = some GoError.keyNotFound) :
    Unregister name port hostname store = Except.ok (some GoError.keyNotFound, 1, []) := by
  rw [unregister_eq_loop name port hostname store hn h1 h2,
    show MaxRetries = 10 + 1 from rfl,
    retryLoop_fatal store 0 10 GoError.keyNotFound h0 (by decide)]

/-- Claim C3 witness. -/
theorem unregister_absent_key_witness :
    Unregister "api" 9000 "" (fun _ => some GoError.keyNotFound) =
      Except.ok (some GoError.keyNotFound, 1, []) :=
  unregister_absent_key "api" 9000 "" _ (by decide) (by decide) (by decide) rfl

/-! Helper lemmas for the Services loop. -/

theorem servicesLoop_constSuccess (nodes : List Json) (svcs : List Service)
    (hd : decodeNodes nodes = Except.ok svcs) :
    ∀ (rem i : Nat) (acc : List Service), 0 < rem →
    servicesLoop (fun _ => GetOutcome.success nodes) i rem acc =
      (Except.ok svcs, rem, (List.range rem).map (fun j => 2 <<< (i + j))) := by
  intro rem
  induction rem with
  | zero =>
    intro i acc h
    omega
  | succ r ih =>
    intro i acc _
    cases Nat.eq_zero_or_pos r with
    | inl h0 =>
      subst h0
      simp [servicesLoop, hd, List.range_succ]
    | inr hpos =>
      have h2 := ih (i + 1) svcs hpos
      simp only [servicesLoop, hd, h2]
      exact congrArg (Prod.mk (Except.ok svcs))
        (congrArg (Prod.mk (r + 1)) (map_shift_succ r i))

theorem decodeNodes_first_error (bad : Json) (e : GoError)
    (hbad : UnmarshalService bad = Except.error e) :
    ∀ (good : List Json) (rest : List Json),
    (∀ n ∈ good, ∃ s, UnmarshalService n = Except.ok s) →
    decodeNodes (good ++ bad :: rest) = Except.error e := by
  intro good
  induction good with
  | nil =>
    intro rest _
    simp [decodeNodes, hbad]
  | cons g gs ih =>
    intro rest hgood
    obtain ⟨s, hs⟩ := hgood g (by simp)
    have h2 := ih rest (fun n hn => hgood n (by simp [hn]))
    simp [decodeNodes, hs, h2]

theorem servicesLoop_timeoutPrefix_decodeError (store : Nat → GetOutcome) (k : Nat) :
    ∀ (i rem : Nat) (acc : List Service) (nodes : List Json) (e : GoError), k < rem →
    (∀ j, j < k → store (i + j) = GetOutcome.failure GoError.deadlineExceeded) →
    store (i + k) = GetOutcome.success nodes →
    decodeNodes nodes = Except.error e →
    servicesLoop store i rem acc =
      (Except.error e, k + 1, (List.range k).map (fun j => 2 <<< (i + j))) := by
  induction k with
  | zero =>
    intro i rem acc nodes e hk ht hs hd
    obtain ⟨r, rfl⟩ : ∃ r, rem = r + 1 := ⟨rem - 1, by omega⟩
    rw [Nat.add_zero] at hs
    simp [servicesLoop, hs, hd]
  | succ k ih =>
    intro i rem acc nodes e hk ht hs hd
    obtain ⟨r, rfl⟩ : ∃ r, rem = r + 1 := ⟨rem - 1, by omega⟩
    have h0 : store i = GetOutcome.failure GoError.deadlineExceeded := by
      have h := ht 0 (by omega)
      rwa [Nat.add_zero] at h
    have ih2 := ih (i + 1) r acc nodes e (by omega)
      (fun j hj => by
        have h := ht (j + 1) (by omega)
        rwa [show i + (j + 1) = i + 1 + j by omega] at h)
      (by rwa [show i + (k + 1) = i + 1 + k by omega] at hs) hd
    simp only [servicesLoop, h0, ih2]
    exact congrArg (Prod.mk (Except.error e))
      (congrArg (Prod.mk (k + 1 + 1)) (map_shift_succ k i))

/-! Claim theorems for the Services loop. -/

/-- Claim C2, counterexample to the claim as stated: with a store
whose prefix read succeeds on every attempt, the list-read loop of
Services does not return after its first successful attempt; it
performs 11 store calls and 11 backoff sleeps. -/
theorem services_success_no_return_cex :
    Services (fun _ => GetOutcome.success []) =
      (Except.ok [], 11, [2, 4, 8, 16, 32, 64, 128, 256, 512, 1024, 2048]) ∧
    (11 : Nat) ≠ 1 := by
  exact ⟨by rfl, by decide⟩

/-- Claim C2 as amended: the register-write and unregister-delete
retry loops return immediately on the first successful store attempt,
with exactly one store call and no backoff sleep; the list-read loop
however does not exit on success: with a store whose read always
succeeds and decodes, Services still performs MaxRetries store calls
and MaxRetries backoff sleeps, returning the last read. -/
theorem first_success_behavior :
    (∀ (name : String) (port : Int) (hostname : String) (store : Nat → Option GoError),
      ¬ name = "" → 1 ≤ port → port ≤ 65535 → store 0 = none →
      Register name port hostname store = Except.ok (none, 1, [])) ∧
    (∀ (name : String) (port : Int) (hostname : String) (store : Nat → Option GoError),
      ¬ name = "" → 1 ≤ port → port ≤ 65535 → store 0 = none →
      Unregister name port hostname store = Except.ok (none, 1, [])) ∧
    (∀ (nodes : List Json) (svcs : List Service), decodeNodes nodes = Except.ok svcs →
      Services (fun _ => GetOutcome.success nodes) =
        (Except.ok svcs, MaxRetries, (List.range MaxRetries).map (fun j => 2 <<< j))) := by
  refine ⟨?_, ?_, ?_⟩
  · intro name port hostname store hn h1 h2 h0
    rw [register_eq_loop name port hostname store hn h1 h2]
    have h := retryLoop_timeoutPrefix store 0 0 MaxRetries (by decide)
      (fun j hj => absurd hj (by omega)) (by rwa [Nat.add_zero])
    simp only [h, List.range_zero, List.map_nil]
  · intro name port hostname store hn h1 h2 h0
    rw [unregister_eq_loop name port hostname store hn h1 h2]
    have h := retryLoop_timeoutPrefix store 0 0 MaxRetries (by decide)
      (fun j hj => absurd hj (by omega)) (by rwa [Nat.add_zero])
    simp only [h, List.range_zero, List.map_nil]
  · intro nodes svcs hd
    unfold Services
    rw [servicesLoop_constSuccess nodes svcs hd MaxRetries 0 [] (by decide), map_shift_zero]

/-- Claim C2 witness. -/
theorem first_success_behavior_witness :
    Register "web" 80 "" (fun _ => none) = Except.ok (none, 1, []) ∧
    Unregister "web" 80 "" (fun _ => none) = Except.ok (none, 1, []) ∧
    Services (fun _ => GetOutcome.success []) =
      (Except.ok [], MaxRetries, (List.range MaxRetries).map (fun j => 2 <<< j)) :=
  ⟨first_success_behavior.1 "web" 80 "" _ (by decide) (by decide) (by decide) rfl,
   first_success_behavior.2.1 "web" 80 "" _ (by decide) (by decide) (by decide) rfl,
   first_success_behavior.2.2 [] [] rfl⟩

/-- Claim C9: if the prefix read succeeds (after k timeouts) but one
child entry fails to decode while every child before it decodes,
Services aborts the whole call at that attempt and returns that decode
error, returning no records. -/
theorem services_decode_error_aborts (store : Nat → GetOutcome) (k : Nat)
    (good : List Json) (bad : Json) (rest : List Json) (e : GoError)
    (hk : k < MaxRetries)
    (ht : ∀ j, j < k → store j = GetOutcome.failure GoError.deadlineExceeded)
    (hs : store k = GetOutcome.success (good ++ bad :: rest))
    (hgood : ∀ n ∈ good, ∃ s, UnmarshalService n = Except.ok s)
    (hbad : UnmarshalService bad = Except.error e) :
    Services store = (Except.error e, k + 1, (List.range k).map (fun j => 2 <<< j)) := by
  unfold Services
  rw [servicesLoop_timeoutPrefix_decodeError store k 0 MaxRetries [] (good ++ bad :: rest) e hk
      (fun j hj => by rw [Nat.zero_add]; exact ht j hj) (by rwa [Nat.zero_add])
      (decodeNodes_first_error bad e hbad good rest hgood),
    map_shift_zero]

/-- Claim C9 witness. -/
theorem services_decode_error_aborts_witness :
    Services (fun _ => GetOutcome.success [Json.str "oops"]) =
      (Except.error (GoError.other "json: cannot unmarshal value into Service"), 0 + 1,
        (List.range 0).map (fun j => 2 <<< j)) :=
  services_decode_error_aborts _ 0 [] (Json.str "oops") []
    (GoError.other "json: cannot unmarshal value into Service") (by decide)
    (fun j hj => absurd hj (by omega)) rfl (fun n hn => absurd hn (by simp)) rfl

/-! Claim theorems for the codec, validation and key path. -/

theorem roundtrip (s : Service) :
    Except.bind s.Marshal UnmarshalService = Except.ok s := by
  obtain ⟨n, p, h⟩ := s
  by_cases hh : h = ""
  · subst hh
    simp [Service.Marshal, UnmarshalService, applyFields, applyField, Except.bind]
  · simp [Service.Marshal, UnmarshalService, applyFields, applyField, Except.bind, hh]

/-- Claim C6: for every valid Service record (non-empty name, port in
1..65535, origin present or absent), decoding the encoding of the
record yields the record back; in particular an absent (empty
sentinel) Hostname decodes back to the empty sentinel. -/
theorem marshal_unmarshal_roundtrip (s : Service)
    (hn : ¬ s.Name = "") (h1 : 1 ≤ s.Port) (h2 : s.Port ≤ 65535) :
    Except.bind s.Marshal UnmarshalService = Except.ok s :=
  roundtrip s

/-- Claim C6 witness. -/
theorem marshal_unmarshal_roundtrip_witness :
    Except.bind (Service.Marshal { Name := "web", Port := 8080, Hostname := "" })
        UnmarshalService =
      Except.ok { Name := "web", Port := 8080, Hostname := "" } :=
  marshal_unmarshal_roundtrip { Name := "web", Port := 8080, Hostname := "" }
    (by decide) (by decide) (by decide)

/-- Claim C7: validate rejects every record with an empty name
whatever the port, and every record with port 0, 65536 or negative;
it accepts port 1 and port 65535 when the name is non-empty. -/
theorem validate_boundaries (name hostname : String) (port : Int) :
    (Service.validate { Name := "", Port := port, Hostname := hostname } ≠ none) ∧
    ((port = 0 ∨ port = 65536 ∨ port < 0) →
      Service.validate { Name := name, Port := port, Hostname := hostname } ≠ none) ∧
    (¬ name = "" →
      Service.validate { Name := name, Port := 1, Hostname := hostname } = none ∧
      Service.validate { Name := name, Port := 65535, Hostname := hostname } = none) := by
  refine ⟨?_, ?_, ?_⟩
  · simp [Service.validate]
  · intro hp
    by_cases hn : name = ""
    · simp [Service.validate, hn]
    · simp only [Service.validate]
      rw [if_neg hn, if_pos (by omega)]
      simp
  · intro hn
    constructor
    · simp only [Service.validate]
      rw [if_neg hn, if_neg (by omega)]
    · simp only [Service.validate]
      rw [if_neg hn, if_neg (by omega)]

/-- Claim C7 witness. -/
theorem validate_boundaries_witness :
    (Service.validate { Name := "", Port := 80, Hostname := "" } ≠ none) ∧
    (Service.validate { Name := "web", Port := 0, Hostname := "" } ≠ none) ∧
    (Service.validate { Name := "web", Port := 1, Hostname := "" } = none ∧
      Service.validate { Name := "web", Port := 65535, Hostname := "" } = none) :=
  ⟨(validate_boundaries "web" "" 80).1,
   (validate_boundaries "web" "" 0).2.1 (Or.inl rfl),
   (validate_boundaries "web" "" 0).2.2 (by decide)⟩

/-- Claim C10: Marshal succeeds on every Service record, so the
marshalling-failure panic branch of Register is unreachable. -/
theorem marshal_total_no_marshal_panic :
    (∀ s : Service, ∃ j, s.Marshal = Except.ok j) ∧
    (∀ (name : String) (port : Int) (hostname : String) (store : Nat → Option GoError),
      Register name port hostname store ≠ Except.error Panic.marshalFailed) := by
  constructor
  · intro s
    exact ⟨_, rfl⟩
  · intro name port hostname store
    simp only [Register, Service.Marshal]
    cases ({ Name := name, Port := port, Hostname := hostname } : Service).validate with
    | none => simp
    | some e => simp

/-! Helper lemmas for the key path. -/

theorem charToDigit_digitToChar (d : Nat) (h : d < 10) :
    (digitToChar d).toNat - 48 = d := by
  interval_cases d <;> rfl

theorem natUnrepr_natRepr (n : Nat) :
    Nat.ofDigits 10 (((natRepr n).map (fun c => c.toNat - 48)).reverse) = n := by
  by_cases h0 : n = 0
  · subst h0
    decide
  · rw [natRepr, if_neg h0, List.map_reverse, List.reverse_reverse, List.map_map]
    have h : (Nat.digits 10 n).map ((fun c => c.toNat - 48) ∘ digitToChar) = Nat.digits 10 n := by
      conv_rhs => rw [← List.map_id (Nat.digits 10 n)]
      apply List.map_congr_left
      intro d hd
      exact charToDigit_digitToChar d (Nat.digits_lt_base (by norm_num) hd)
    rw [h, Nat.ofDigits_digits]

theorem natRepr_inj (m n : Nat) (h : natRepr m = natRepr n) : m = n := by
  have hm := natUnrepr_natRepr m
  rw [h, natUnrepr_natRepr n] at hm
  exact hm.symm

theorem colon_notMem_natRepr (n : Nat) : ':' ∉ natRepr n := by
  rw [natRepr]
  by_cases h0 : n = 0
  · rw [if_pos h0]
    decide
  · rw [if_neg h0]
    intro hmem
    rw [List.mem_reverse] at hmem
    obtain ⟨d, hd, hc⟩ := List.mem_map.mp hmem
    have hlt := Nat.digits_lt_base (by norm_num) hd
    revert hc
    interval_cases d <;> decide

theorem append_colon_inj (t₁ t₂ : List Char) (h1 : ':' ∉ t₁) (h2 : ':' ∉ t₂) :
    ∀ (a₁ a₂ : List Char), a₁ ++ ':' :: t₁ = a₂ ++ ':' :: t₂ → a₁ = a₂ ∧ t₁ = t₂ := by
  intro a₁
  induction a₁ with
  | nil =>
    intro a₂ h
    cases a₂ with
    | nil =>
      simp only [List.nil_append] at h
      injection h with _ ht
      exact ⟨rfl, ht⟩
    | cons c a₂ =>
      simp only [List.nil_append, List.cons_append] at h
      injection h with _ ht
      exfalso
      apply h1
      rw [ht]
      simp
  | cons c a₁ ih =>
    intro a₂ h
    cases a₂ with
    | nil =>
      simp only [List.cons_append, List.nil_append] at h
      injection h with _ ht
      exfalso
      apply h2
      rw [← ht]
      simp
    | cons c2 a₂ =>
      simp only [List.cons_append] at h
      injection h with hc ht
      obtain ⟨ha, ht2⟩ := ih a₂ ht
      exact ⟨by rw [hc, ha], ht2⟩

theorem intRepr_pos_data (p : Int) (hp : 1 ≤ p) : (intRepr p).data = natRepr p.toNat := by
  rw [intRepr, if_neg (by omega)]

theorem path_data (s : Service) (hp : 1 ≤ s.Port) :
    (s.path).data = (RegistryPath ++ "/").data ++ (s.Name.data ++ ':' :: natRepr s.Port.toNat) := by
  show (RegistryPath ++ "/" ++ s.Name ++ ":" ++ intRepr s.Port).data = _
  rw [String.data_append, String.data_append, String.data_append,
    intRepr_pos_data s.Port hp, show (":" : String).data = [':'] from rfl]
  simp [List.append_assoc]

theorem path_injective (s₁ s₂ : Service) (hp1 : 1 ≤ s₁.Port) (hp2 : 1 ≤ s₂.Port)
    (h : s₁.path = s₂.path) : s₁.Name = s₂.Name ∧ s₁.Port = s₂.Port := by
  have hd := congrArg String.data h
  rw [path_data s₁ hp1, path_data s₂ hp2] at hd
  have hd2 := List.append_cancel_left hd
  obtain ⟨hname, hport⟩ := append_colon_inj _ _
    (colon_notMem_natRepr _) (colon_notMem_natRepr _) _ _ hd2
  constructor
  · exact String.ext hname
  · have h2 := natRepr_inj _ _ hport
    omega

/-- Claim C8: the store key is a pure function of (name, port):
identical valid inputs give identical keys, and distinct valid
(name, port) pairs, including the same name with different ports,
give distinct keys. -/
theorem path_stable_injective (s₁ s₂ : Service)
    (hn1 : ¬ s₁.Name = "") (hp1 : 1 ≤ s₁.Port) (hq1 : s₁.Port ≤ 65535)
    (hn2 : ¬ s₂.Name = "") (hp2 : 1 ≤ s₂.Port) (hq2 : s₂.Port ≤ 65535) :
    (s₁.Name = s₂.Name ∧ s₁.Port = s₂.Port → s₁.path = s₂.path) ∧
    (s₁.path = s₂.path → s₁.Name = s₂.Name ∧ s₁.Port = s₂.Port) := by
  constructor
  · rintro ⟨h1, h2⟩
    unfold Service.path
    rw [h1, h2]
  · exact path_injective s₁ s₂ hp1 hp2

/-- Claim C8 witness. -/
theorem path_stable_injective_witness :
    Service.path { Name := "web", Port := 80, Hostname := "" } =
      Service.path { Name := "web", Port := 80, Hostname := "host-1" } :=
  (path_stable_injective { Name := "web", Port := 80, Hostname := "" }
      { Name := "web", Port := 80, Hostname := "host-1" }
      (by decide) (by decide) (by decide) (by decide) (by decide) (by decide)).1 ⟨rfl, rfl⟩

end Portmapper
